import Mathlib

/-!
# CrossCheck reasoning orchestrator: admission queue and worker pipeline

Shallow embedding of the reasoning-job admission queue (`ReasoningQueue` in
`api/src/queue.ts`, file `src/unnamed/part_002`), the `POST /reasoning/jobs`
job construction (`api/src/index.ts`), and the reasoning workers.  The
repository contains two workers:

* the standalone worker of `src/unnamed/part_001`, whose `jobSchema` declares
  no `tenantId` and whose `processMessage` settles without quota checks or
  usage events — embedded as `validateJob`, `processMessage` below; and
* the worker concatenated into `src/api/src/db.ts` (lines 51–719), whose
  `jobSchema` declares `tenantId` and whose `processQueuedMessage` implements
  the quota-rejection branch, the usage-event posts and the full completion
  envelope — embedded in the `DbWorker` namespace.

The AJV stage schemas, `ensureValid`, `callFoundry`, `runPipeline` and
`decodeJob`'s structure are textually identical in the two files, so their
embeddings are shared; `decodeJob` sits outside the `try` of the message
handler in both.

Conventions of the embedding:
* JavaScript numbers used as counters are modelled as `Int`; every
  `Math.max(0, x - 1)` in the source is translated literally as
  `max 0 (x - 1)`, and guarded decrements (`if (u.queued > 0)`) keep their
  guards.
* The admission queue is single-threaded JavaScript: an `async` call such as
  `void this.drain()` executes synchronously up to its first `await`
  (the bus `sendMessages`).  The machine state therefore carries
  `sendPending`, the queue item whose bus send has been started and is
  awaiting its result; `drainStep` is the synchronous prefix of `drain()` up
  to that suspension, and `sendResult` is the continuation that runs when the
  send promise settles.  The `draining` flag of the source is `true` exactly
  when `sendPending` is `some`, so it is not carried separately.
* JSON values are modelled by the inductive `Json` with rational numbers;
  AJV validators compiled from the schemas of `part_001` become boolean
  functions on `Json`.  AJV error detail strings are abstracted to the
  fixed label texts of the source (`"<label> failed schema validation"`,
  `"<label> response was not valid JSON"`).
* External collaborators (the LLM endpoint, `JSON.parse` on string bodies)
  are modelled by oracles supplied as arguments; everything else is
  translated from the source.
-/

/-- JSON values (numbers as rationals, objects as key/value lists). -/
inductive Json where
  | null : Json
  | bool (b : Bool) : Json
  | num (q : ℚ) : Json
  | str (s : String) : Json
  | arr (items : List Json) : Json
  | obj (fields : List (String × Json)) : Json

namespace Json

/-- First binding of a key in an object; `none` on non-objects. -/
def lookup : Json → String → Option Json
  | .obj fields, k => (fields.find? (fun kv => kv.fst = k)).map (·.snd)
  | _, _ => none

/-- Is this JSON value a string? (AJV `type: "string"`.) -/
def isStr : Json → Bool
  | .str _ => true
  | _ => false

/-- Is this a number within `[0, 1]`? (AJV `type: "number", minimum: 0, maximum: 1`.) -/
def isScore : Json → Bool
  | .num q => decide (0 ≤ q ∧ q ≤ 1)
  | _ => false

/-- Is this one of the enumeration values `low`/`medium`/`high`? -/
def isSeverity : Json → Bool
  | .str s => s = "low" || s = "medium" || s = "high"
  | _ => false

end Json

/-- `properties`/`additionalProperties: false`: every key of the object is declared. -/
def keysAllowed (allowed : List String) (fields : List (String × Json)) : Bool :=
  fields.all (fun kv => allowed.contains kv.fst)

/-- A required property, checked by `check`. -/
def reqField (fields : List (String × Json)) (k : String) (check : Json → Bool) : Bool :=
  match (fields.find? (fun kv => kv.fst = k)).map (·.snd) with
  | some v => check v
  | none => false

/-- An object schema node: `additionalProperties: false`, all properties required. -/
def objSchema (props : List (String × (Json → Bool))) : Json → Bool
  | .obj fields =>
      keysAllowed (props.map (·.fst)) fields &&
      props.all (fun p => reqField fields p.fst p.snd)
  | _ => false

/-- An array schema node with `minItems: 1`. -/
def arrMin1 (item : Json → Bool) : Json → Bool
  | .arr items => decide (1 ≤ items.length) && items.all item
  | _ => false

/-- `jobSchema` of the standalone worker (`part_001`): note that, unlike the
`jobSchema` of the `db.ts` worker (`DbWorker.validateJob`), it has **no**
`tenantId` property, with `additionalProperties: false`. -/
def validateJob : Json → Bool :=
  objSchema
    [("jobId", Json.isStr),
     ("claim", Json.isStr),
     ("context", objSchema
        [("documents", arrMin1 (objSchema
            [("id", Json.isStr), ("content", Json.isStr)]))]),
     ("criteria", arrMin1 (objSchema
        [("id", Json.isStr), ("description", Json.isStr)]))]

/-- `retrievalSchema` of the worker. -/
def validateRetrieval : Json → Bool :=
  objSchema
    [("documents", arrMin1 (objSchema
        [("id", Json.isStr), ("summary", Json.isStr), ("relevance", Json.isScore)]))]

/-- `matchingSchema` of the worker. -/
def validateMatching : Json → Bool :=
  objSchema
    [("matches", arrMin1 (objSchema
        [("criterionId", Json.isStr), ("documentId", Json.isStr),
         ("evidence", Json.isStr), ("score", Json.isScore)]))]

/-- `findingGenerationSchema` of the worker. -/
def validateFindingGeneration : Json → Bool :=
  objSchema
    [("findings", arrMin1 (objSchema
        [("id", Json.isStr), ("summary", Json.isStr),
         ("severity", Json.isSeverity), ("supportingEvidence", arrMin1 Json.isStr)]))]

/-- `agreementScoringSchema` of the worker. -/
def validateAgreementScoring : Json → Bool :=
  objSchema
    [("agreements", arrMin1 (objSchema
        [("findingId", Json.isStr), ("agreementScore", Json.isScore),
         ("rationale", Json.isStr)]))]

/-- `categorySynthesisSchema` of the worker. -/
def validateCategorySynthesis : Json → Bool :=
  objSchema
    [("categories", arrMin1 (objSchema
        [("name", Json.isStr), ("rationale", Json.isStr),
         ("findingIds", arrMin1 Json.isStr)]))]

/-- `overallAssessmentSchema` of the worker. -/
def validateOverallAssessment : Json → Bool :=
  objSchema
    [("assessment", objSchema
        [("overallScore", Json.isScore), ("summary", Json.isStr),
         ("riskLevel", Json.isSeverity), ("recommendation", Json.isStr)])]

/-- `pipelineSchema` of the worker: the combined envelope. -/
def validatePipeline : Json → Bool :=
  objSchema
    [("jobId", Json.isStr),
     ("retrieval", validateRetrieval),
     ("matching", validateMatching),
     ("findingGeneration", validateFindingGeneration),
     ("agreementScoring", validateAgreementScoring),
     ("categorySynthesis", validateCategorySynthesis),
     ("overallAssessment", validateOverallAssessment)]

/-! ## Worker: decode, pipeline, per-message settlement (`part_001`) -/

/-- The six pipeline stages, in source order. -/
inductive Stage where
  | retrieval | matching | findingGeneration
  | agreementScoring | categorySynthesis | overallAssessment
deriving DecidableEq

/-- Outcome of one `callFoundry` invocation as seen by `runPipeline`: either the
JSON-parsed `choices[0].message.content`, or the thrown error message (non-2xx
response, missing content, or content that is not valid JSON).  The LLM
endpoint is external, so it is an oracle parameter; it receives the stage and
the stage-input object that `runPipeline` passes to `callFoundry`. -/
def LlmOracle := Stage → Json → Except String Json

/-- `ensureValid` (`part_001`): returns the value when the validator accepts
it, otherwise throws `"<label> failed schema validation: …"` (AJV error
details abstracted away). -/
def ensureValid (validator : Json → Bool) (data : Json) (label : String) :
    Except String Json :=
  if validator data then .ok data else .error (label ++ " failed schema validation")

/-- One stage of `runPipeline`: call the LLM, then `ensureValid`. -/
def stageCall (oracle : LlmOracle) (st : Stage) (input : Json)
    (validator : Json → Bool) (label : String) : Except String Json := do
  let content ← oracle st input
  ensureValid validator content label

/-- Field access on a validated JSON object (`matching.matches` etc.); the
validators guarantee the field is present, `Json.null` is a dummy default. -/
def Json.fieldD (j : Json) (k : String) : Json :=
  (j.lookup k).getD Json.null

/-- `job.jobId` of a schema-validated job object. -/
def jobIdOf (job : Json) : String :=
  match job.lookup "jobId" with
  | some (.str s) => s
  | _ => ""

/-- `runPipeline` (`part_001`): the six sequential stages, each input built
exactly as in the source, the assembled `PipelineResult` validated against the
combined pipeline schema before being returned. -/
def runPipeline (job : Json) (oracle : LlmOracle) : Except String Json := do
  let retrieval ← stageCall oracle .retrieval
    (.obj [("claim", job.fieldD "claim"), ("documents", (job.fieldD "context").fieldD "documents")])
    validateRetrieval "Retrieval"
  let matching ← stageCall oracle .matching
    (.obj [("claim", job.fieldD "claim"), ("criteria", job.fieldD "criteria"),
           ("retrieval", retrieval)])
    validateMatching "Matching"
  let findingGeneration ← stageCall oracle .findingGeneration
    (.obj [("claim", job.fieldD "claim"), ("matches", matching.fieldD "matches")])
    validateFindingGeneration "Finding generation"
  let agreementScoring ← stageCall oracle .agreementScoring
    (.obj [("claim", job.fieldD "claim"), ("findings", findingGeneration.fieldD "findings")])
    validateAgreementScoring "Agreement scoring"
  let categorySynthesis ← stageCall oracle .categorySynthesis
    (.obj [("findings", findingGeneration.fieldD "findings"),
           ("agreements", agreementScoring.fieldD "agreements")])
    validateCategorySynthesis "Category synthesis"
  let overallAssessment ← stageCall oracle .overallAssessment
    (.obj [("claim", job.fieldD "claim"), ("findings", findingGeneration.fieldD "findings"),
           ("agreements", agreementScoring.fieldD "agreements"),
           ("categories", categorySynthesis.fieldD "categories")])
    validateOverallAssessment "Overall assessment"
  let pipelineResult : Json := .obj
    [("jobId", .str (jobIdOf job)),
     ("retrieval", retrieval),
     ("matching", matching),
     ("findingGeneration", findingGeneration),
     ("agreementScoring", agreementScoring),
     ("categorySynthesis", categorySynthesis),
     ("overallAssessment", overallAssessment)]
  ensureValid validatePipeline pipelineResult "Pipeline result"

/-- A received bus message body: either already an object, or a string whose
`JSON.parse` result is modelled by the attached `Option Json` (`none` when the
string is not valid JSON). -/
inductive MsgBody where
  | jsonBody (j : Json)
  | strBody (s : String) (parsed : Option Json)

/-- `decodeJob` (`part_001`): parse a string body (throwing
`"Job response was not valid JSON: …"` on parse failure), then `ensureValid`
against the worker's `jobSchema`. -/
def decodeJob : MsgBody → Except String Json
  | .jsonBody j => ensureValid validateJob j "Job"
  | .strBody _ none => .error "Job response was not valid JSON"
  | .strBody _ (some j) => ensureValid validateJob j "Job"

/-- Everything `processMessage` does to the outside world for one message.
`usagePosts` records lifecycle usage events posted to admission accounting;
`part_001` contains no such call, so it is `[]` on every path.  `threw` is an
error that escaped `processMessage` itself (the Service Bus SDK then abandons
the message; it is *not* dead-lettered). -/
structure WorkerResult where
  sent : List Json
  completed : Bool
  deadLettered : Option (String × String)
  threw : Option String
  usagePosts : List (String × String)

/-- `processMessage` of the standalone worker (`part_001`, lines 452–472):
`decodeJob` runs **outside** the `try`, so a decode failure propagates out of
the handler; on pipeline success the completion envelope
`{jobId, completedAt, result}` is sent to the output queue and the message
completed; on pipeline failure the message is dead-lettered with reason
`"PipelineFailure"`.  (`sendMessages` and `completeMessage` are modelled as
non-throwing.)  The settlement of the `db.ts` worker, with its quota check and
usage events, is `DbWorker.processQueuedMessage`. -/
def processMessage (body : MsgBody) (oracle : LlmOracle) (now : String) :
    WorkerResult :=
  match decodeJob body with
  | .error e =>
      { sent := [], completed := false, deadLettered := none,
        threw := some e, usagePosts := [] }
  | .ok job =>
      match runPipeline job oracle with
      | .ok result =>
          { sent := [.obj [("jobId", .str (jobIdOf job)),
                           ("completedAt", .str now),
                           ("result", result)]],
            completed := true, deadLettered := none,
            threw := none, usagePosts := [] }
      | .error e =>
          { sent := [], completed := false,
            deadLettered := some ("PipelineFailure", e),
            threw := none, usagePosts := [] }

/-! ## The `db.ts` worker: schema with `tenantId`, quota rejection, usage events -/

/-- `job.tenantId` of a job object validated by the `db.ts` worker's schema. -/
def tenantIdOf (job : Json) : String :=
  match job.lookup "tenantId" with
  | some (.str s) => s
  | _ => ""

namespace DbWorker

/-- `jobSchema` of the `db.ts` worker (`src/api/src/db.ts`, lines 216–258): the
same shape as the standalone worker's, but with a required `tenantId` string
property, so the `ReasoningJob` record dispatched by the admission queue is
accepted. -/
def validateJob : Json → Bool :=
  objSchema
    [("jobId", Json.isStr),
     ("tenantId", Json.isStr),
     ("claim", Json.isStr),
     ("context", objSchema
        [("documents", arrMin1 (objSchema
            [("id", Json.isStr), ("content", Json.isStr)]))]),
     ("criteria", arrMin1 (objSchema
        [("id", Json.isStr), ("description", Json.isStr)]))]

/-- `decodeJob` of the `db.ts` worker (lines 569–572): parse a string body,
then `ensureValid` against this worker's `jobSchema`. -/
def decodeJob : MsgBody → Except String Json
  | .jsonBody j => ensureValid validateJob j "Job"
  | .strBody _ none => .error "Job response was not valid JSON"
  | .strBody _ (some j) => ensureValid validateJob j "Job"

/-- `getTenantQuota` (lines 166–168): `tenantQuotas[tenantId] ?? defaultTenantQuota`. -/
def getTenantQuota (quotas : String → Option Int) (defQuota : Int) (t : String) : Int :=
  (quotas t).getD defQuota

/-- `updateTenantCount` (lines 174–181): floor at 0; the map deletes zero
entries, which is observationally the total function's default 0. -/
def updateTenantCount (counts : String → Int) (t : String) (delta : Int) :
    String → Int :=
  fun x => if x = t then max 0 (counts t + delta) else counts x

/-- `processQueuedMessage` of the `db.ts` worker (lines 574–644).  `decodeJob`
runs before the `try`, so a decode failure still escapes the handler.  When
the tenant's active count is at or above its quota, the rejection envelope
`{jobId, tenantId, status:"rejected", completedAt, error:{code, message,
quota, active}}` is sent, the message completed, and the `rejected` usage
event posted — the pipeline is not consulted.  Otherwise the count is bumped,
`started` posted, the pipeline run; success sends
`{jobId, tenantId, completedAt, status:"completed", result}`, completes the
message and posts `completed`; failure dead-letters with reason
`"PipelineFailure"` and posts `failed`; the `finally` undoes the bump.
`usagePosts` records the `emitUsageEvent` calls in order (each is a `fetch` of
`USAGE_EVENT_ENDPOINT`, received by `POST /admin/usage/events`, which invokes
`ReasoningQueue.recordUsageEvent`); bus sends and `completeMessage` are
modelled as non-throwing.  Returns the effects together with the final
`tenantActiveCounts`. -/
def processQueuedMessage (quotas : String → Option Int) (defQuota : Int)
    (counts : String → Int) (body : MsgBody) (oracle : LlmOracle) (now : String) :
    WorkerResult × (String → Int) :=
  match decodeJob body with
  | .error e =>
      ({ sent := [], completed := false, deadLettered := none,
         threw := some e, usagePosts := [] }, counts)
  | .ok job =>
      let tenantId := tenantIdOf job
      let quota := getTenantQuota quotas defQuota tenantId
      let current := counts tenantId
      if quota ≤ current then
        ({ sent := [.obj
              [("jobId", .str (jobIdOf job)),
               ("tenantId", .str tenantId),
               ("status", .str "rejected"),
               ("completedAt", .str now),
               ("error", .obj
                  [("code", .str "TenantQuotaExceeded"),
                   ("message", .str ("Tenant " ++ tenantId ++ " exceeded quota of "
                      ++ toString quota ++ " active jobs.")),
                   ("quota", .num (quota : ℚ)),
                   ("active", .num (current : ℚ))])]],
           completed := true, deadLettered := none, threw := none,
           usagePosts := [(tenantId, "rejected")] }, counts)
      else
        let countsDone :=
          updateTenantCount (updateTenantCount counts tenantId 1) tenantId (-1)
        match runPipeline job oracle with
        | .ok result =>
            ({ sent := [.obj
                  [("jobId", .str (jobIdOf job)),
                   ("tenantId", .str tenantId),
                   ("completedAt", .str now),
                   ("status", .str "completed"),
                   ("result", result)]],
               completed := true, deadLettered := none, threw := none,
               usagePosts := [(tenantId, "started"), (tenantId, "completed")] },
             countsDone)
        | .error e =>
            ({ sent := [], completed := false,
               deadLettered := some ("PipelineFailure", e), threw := none,
               usagePosts := [(tenantId, "started"), (tenantId, "failed")] },
             countsDone)

end DbWorker

/-! ## Admission queue (`ReasoningQueue`, `part_002`) -/

/-- `context.documents[]` entry of a `ReasoningJob`. -/
structure DocumentRef where
  id : String
  content : String
deriving DecidableEq

/-- `criteria[]` entry of a `ReasoningJob`. -/
structure CriterionRef where
  id : String
  description : String
deriving DecidableEq

/-- `ReasoningJob` (`part_002`): the admission-side job record, which
**includes** `tenantId`. -/
structure ReasoningJob where
  jobId : String
  tenantId : String
  claim : String
  documents : List DocumentRef
  criteria : List CriterionRef
deriving DecidableEq

/-- The JSON body dispatched to the bus for a job: the object literal built in
`POST /reasoning/jobs` (`api/src/index.ts`), serialized field by field,
`context` wrapping `documents`. -/
def encodeReasoningJob (job : ReasoningJob) : Json :=
  .obj
    [("jobId", .str job.jobId),
     ("tenantId", .str job.tenantId),
     ("claim", .str job.claim),
     ("context", .obj
        [("documents", .arr (job.documents.map (fun d =>
            .obj [("id", .str d.id), ("content", .str d.content)])))]),
     ("criteria", .arr (job.criteria.map (fun c =>
        .obj [("id", .str c.id), ("description", .str c.description)])))]

/-- `TenantUsage`: the per-tenant counters. -/
structure TenantUsage where
  queued : Int
  active : Int
deriving DecidableEq

/-- `QueueItem`: a pending entry. -/
structure QueueItem where
  job : ReasoningJob
  tenantId : String
  enqueuedAt : Int
deriving DecidableEq

/-- The constructor options of `ReasoningQueue`; `tenantQuotas` is the
`Record<string, number>` of per-tenant overrides. -/
structure QueueOptions where
  maxQueueDepth : Int
  maxDispatchInFlight : Int
  defaultTenantQuota : Int
  tenantQuotas : String → Option Int

/-- `getQuota`: `tenantQuotas[tenantId] ?? defaultTenantQuota`. -/
def getQuota (o : QueueOptions) (tenantId : String) : Int :=
  (o.tenantQuotas tenantId).getD o.defaultTenantQuota

/-- The mutable state of a `ReasoningQueue`.  `usage` is total with default
`⟨0, 0⟩`; `tenants` lists the keys that `getUsage` has inserted into the
`usageByTenant` map.  `sendPending` is the item whose `sender.sendMessages`
call has started and not yet settled (see the file header). -/
structure QueueState where
  pending : List QueueItem
  tenants : List String
  usage : String → TenantUsage
  sendPending : Option QueueItem
  inFlight : Int
  totalQueued : Int
  totalActive : Int

/-- The state of a freshly constructed queue. -/
def initState : QueueState :=
  { pending := [], tenants := [], usage := fun _ => ⟨0, 0⟩,
    sendPending := none, inFlight := 0, totalQueued := 0, totalActive := 0 }

/-- `getUsage`'s map insertion: record the tenant key (values are unchanged
because absent tenants already read as `⟨0, 0⟩`). -/
def QueueState.touch (s : QueueState) (t : String) : QueueState :=
  if t ∈ s.tenants then s else { s with tenants := t :: s.tenants }

/-- Write a tenant's usage record. -/
def QueueState.setUsage (s : QueueState) (t : String) (u : TenantUsage) : QueueState :=
  { s with usage := fun x => if x = t then u else s.usage x }

/-- The synchronous prefix of `drain()`: if no drain is in progress, run the
loop up to the `await this.sender.sendMessages(...)` suspension (or to the
loop exit when there is nothing to dispatch).  Counter updates in source
order: `shift`, `inFlightDispatch += 1`, `totalQueued = max(0, totalQueued-1)`,
guarded `usage.queued -= 1`, `usage.active += 1`, `totalActive += 1`. -/
def drainStep (o : QueueOptions) (s : QueueState) : QueueState :=
  if s.sendPending.isSome then s
  else
    match s.pending with
    | [] => s
    | next :: rest =>
        if s.inFlight < o.maxDispatchInFlight then
          let s1 : QueueState :=
            { s with pending := rest, inFlight := s.inFlight + 1,
                     totalQueued := max 0 (s.totalQueued - 1) }
          let s2 := s1.touch next.tenantId
          let u := s2.usage next.tenantId
          let u1 : TenantUsage :=
            { queued := if u.queued > 0 then u.queued - 1 else u.queued,
              active := u.active + 1 }
          let s3 := s2.setUsage next.tenantId u1
          { s3 with totalActive := s3.totalActive + 1, sendPending := some next }
        else s

/-- The continuation of `drain()` once the pending bus send settles.  On
success (`ok = true`): `finally` decrements `inFlightDispatch` and the loop
continues (next `drainStep`).  On failure: the `catch` reverts the counters
(`usage.active = max(0, usage.active - 1)`, `totalActive = max(0,
totalActive - 1)`, `usage.queued += 1`, `totalQueued += 1`), `unshift`s the
item, `break`s, and the `finally`s decrement `inFlightDispatch` and clear
`draining`. -/
def sendResult (o : QueueOptions) (s : QueueState) (ok : Bool) : QueueState :=
  match s.sendPending with
  | none => s
  | some next =>
      if ok then
        drainStep o { s with sendPending := none, inFlight := max 0 (s.inFlight - 1) }
      else
        let u := s.usage next.tenantId
        let u1 : TenantUsage :=
          { queued := u.queued + 1, active := max 0 (u.active - 1) }
        let s1 := s.setUsage next.tenantId u1
        { s1 with totalActive := max 0 (s1.totalActive - 1),
                  totalQueued := s1.totalQueued + 1,
                  pending := next :: s1.pending,
                  inFlight := max 0 (s1.inFlight - 1),
                  sendPending := none }

/-- The admission errors thrown by `enqueue` (messages elided; the carried
fields are those of `TenantQuotaError` and `QueueDepthError`). -/
inductive EnqueueError where
  | quotaErr (tenantId : String) (quota : Int) (usage : TenantUsage)
  | depthErr (queueDepth : Int) (limit : Int)
deriving DecidableEq

/-- The record returned by a successful `enqueue`. -/
structure EnqueueResult where
  queueDepth : Int
  position : Nat
  quota : Int
  usage : TenantUsage
deriving DecidableEq

/-- `enqueue(job)` (`part_002`): global depth check first, then tenant quota
check, then push + counter increments, then `void this.drain()` — whose
synchronous prefix runs before `enqueue` returns — and finally the result
record, whose `position` and `usage` fields read the state as left by that
prefix.  Returns the successor state together with `throw`/return. -/
def enqueue (o : QueueOptions) (s : QueueState) (job : ReasoningJob) (now : Int) :
    QueueState × Except EnqueueError EnqueueResult :=
  let t := job.tenantId
  let s0 := s.touch t
  let u := s0.usage t
  let quota := getQuota o t
  let totalUsage := u.queued + u.active
  let totalDepth := s0.totalQueued + s0.totalActive
  if o.maxQueueDepth ≤ totalDepth then
    (s0, .error (.depthErr totalDepth o.maxQueueDepth))
  else if quota ≤ totalUsage then
    (s0, .error (.quotaErr t quota u))
  else
    let item : QueueItem := { job := job, tenantId := t, enqueuedAt := now }
    let s1 : QueueState :=
      { s0 with pending := s0.pending ++ [item],
                totalQueued := s0.totalQueued + 1 }
    let s2 := s1.setUsage t { u with queued := u.queued + 1 }
    let s3 := drainStep o s2
    let u3 := s3.usage t
    (s3, .ok { queueDepth := s3.totalQueued + s3.totalActive,
               position := s3.pending.length,
               quota := quota,
               usage := { queued := u3.queued, active := u3.active } })

/-- Usage event types accepted by `POST /admin/usage/events`. -/
inductive EventType where
  | started | completed | failed | rejected
deriving DecidableEq

/-- Is this one of the terminal event types? -/
def EventType.isTerminal : EventType → Bool
  | .started => false
  | _ => true

/-- `recordUsageEvent` (`part_002`): `completed | failed | rejected` decrement
the tenant's `active` (and `totalActive`, via `Math.max 0`) only when
`usage.active > 0`; `started` changes nothing. -/
def recordUsageEvent (s : QueueState) (t : String) (ty : EventType) : QueueState :=
  let s0 := s.touch t
  let u := s0.usage t
  if ty.isTerminal && u.active > 0 then
    let s1 := s0.setUsage t { u with active := u.active - 1 }
    { s1 with totalActive := max 0 (s1.totalActive - 1) }
  else s0

/-! ## Sums, disciplined reachability, and the inductive invariant -/

/-- 1 for the tenant whose dispatch is awaiting its bus-send result, else 0. -/
def inflightFor (s : QueueState) (t : String) : Int :=
  match s.sendPending with
  | some it => if it.tenantId = t then 1 else 0
  | none => 0

/-- Number of pending entries belonging to a tenant. -/
def countTenant (t : String) (l : List QueueItem) : Int :=
  ((l.filter (fun it => it.tenantId = t)).length : Int)

/-- Sum of `queued` over the tenants in the usage map (absent tenants read 0). -/
def sumQueued (s : QueueState) : Int :=
  (s.tenants.map (fun t => (s.usage t).queued)).sum

/-- Sum of `active` over the tenants in the usage map. -/
def sumActive (s : QueueState) : Int :=
  (s.tenants.map (fun t => (s.usage t).active)).sum

/-- Sum of `queued + active` over the tenants in the usage map. -/
def sumDepth (s : QueueState) : Int :=
  (s.tenants.map (fun t => (s.usage t).queued + (s.usage t).active)).sum

/-- Pointwise adjustment of a credit function. -/
def bump (c : String → Int) (t : String) (d : Int) : String → Int :=
  fun x => if x = t then c x + d else c x

/-- States reachable from a fresh queue by `enqueue`, the drain continuations
(success or failure of the pending bus send), and usage events, under the
matched-event discipline of the spec: a terminal usage event is delivered only
for a job whose dispatch previously succeeded, at most once per such job
(`c` counts, per tenant, successful dispatches not yet matched by a terminal
event).  `started` events and arbitrary `enqueue` calls are unrestricted. -/
inductive DReachable (o : QueueOptions) : QueueState → (String → Int) → Prop where
  | init : DReachable o initState (fun _ => 0)
  | enq (s : QueueState) (c : String → Int) (job : ReasoningJob) (now : Int) :
      DReachable o s c → DReachable o (enqueue o s job now).1 c
  | sendOk (s : QueueState) (c : String → Int) (it : QueueItem) :
      DReachable o s c → s.sendPending = some it →
      DReachable o (sendResult o s true) (bump c it.tenantId 1)
  | sendFail (s : QueueState) (c : String → Int) (it : QueueItem) :
      DReachable o s c → s.sendPending = some it →
      DReachable o (sendResult o s false) c
  | evStarted (s : QueueState) (c : String → Int) (t : String) :
      DReachable o s c → DReachable o (recordUsageEvent s t .started) c
  | evTerminal (s : QueueState) (c : String → Int) (t : String) (ty : EventType) :
      DReachable o s c → ty.isTerminal = true → 1 ≤ c t →
      DReachable o (recordUsageEvent s t ty) (bump c t (-1))

/-- The inductive invariant of the admission queue under the matched-event
discipline, relating the aggregate counters to the per-tenant ones. -/
structure QueueInv (o : QueueOptions) (s : QueueState) (c : String → Int) : Prop where
  creditsNonneg : ∀ t, 0 ≤ c t
  usageOff : ∀ t, t ∉ s.tenants → s.usage t = ⟨0, 0⟩
  nodup : s.tenants.Nodup
  queuedCount : ∀ t, (s.usage t).queued = countTenant t s.pending
  activeBal : ∀ t, (s.usage t).active = c t + inflightFor s t
  totalQ : s.totalQueued = (s.pending.length : Int)
  totalA : s.totalActive = sumActive s
  inFlightEq : s.inFlight = (if s.sendPending.isSome then 1 else 0)
  depthLe : s.totalQueued + s.totalActive ≤ o.maxQueueDepth

/-! ## Concrete instances used in the scenario proofs -/

/-- The job of scenario S1 (`jobId "j1"`, tenant `t1`). -/
def jobJ1 : ReasoningJob :=
  { jobId := "j1", tenantId := "t1", claim := "c",
    documents := [{ id := "d1", content := "x" }],
    criteria := [{ id := "k1", description := "r" }] }

/-- A second job for tenant `t1`. -/
def jobJ2t1 : ReasoningJob := { jobJ1 with jobId := "j2" }

/-- A job for tenant `t2`. -/
def jobJ2 : ReasoningJob := { jobJ1 with jobId := "j2", tenantId := "t2" }

/-- A job for tenant `t3`. -/
def jobJ3 : ReasoningJob := { jobJ1 with jobId := "j3", tenantId := "t3" }

/-- S1 options: `defaultQuota = 2`, `maxQueueDepth = 10`, `dispatch = 2`. -/
def optsS1 : QueueOptions :=
  { maxQueueDepth := 10, maxDispatchInFlight := 2,
    defaultTenantQuota := 2, tenantQuotas := fun _ => none }

/-- Options with `maxQueueDepth = 1`, `defaultQuota = 1`. -/
def optsTight : QueueOptions :=
  { maxQueueDepth := 1, maxDispatchInFlight := 2,
    defaultTenantQuota := 1, tenantQuotas := fun _ => none }

/-- Options with `maxQueueDepth = 2`, `defaultQuota = 5`. -/
def optsDepth2 : QueueOptions :=
  { maxQueueDepth := 2, maxDispatchInFlight := 2,
    defaultTenantQuota := 5, tenantQuotas := fun _ => none }

/-- Options with `maxQueueDepth = 0` (every enqueue hits the depth ceiling). -/
def optsZero : QueueOptions :=
  { maxQueueDepth := 0, maxDispatchInFlight := 2,
    defaultTenantQuota := 5, tenantQuotas := fun _ => none }

/-- State after admitting `jobJ1` under `optsTight` (its dispatch is awaiting
the bus-send result, `t1` holds `{queued 0, active 1}`). -/
def stateTight1 : QueueState := (enqueue optsTight initState jobJ1 0).1

/-- Steps of the racing trace: admit `jobJ2` (tenant `t2`) under `optsDepth2`. -/
def raceA1 : QueueState := (enqueue optsDepth2 initState jobJ2 0).1

/-- … its bus send succeeds (`t2` now has one active job). -/
def raceA2 : QueueState := sendResult optsDepth2 raceA1 true

/-- … admit `jobJ1` (tenant `t1`); its bus send is now awaiting its result. -/
def raceA3 : QueueState := (enqueue optsDepth2 raceA2 jobJ1 0).1

/-- … a terminal usage event for `t1` arrives while that send is in flight. -/
def raceA4 : QueueState := recordUsageEvent raceA3 "t1" .completed

/-- … and then the send for `jobJ1` fails and `drain` reverts. -/
def raceA5 : QueueState := sendResult optsDepth2 raceA4 false

/-- A queue state with one pending entry for `t1` and an idle drain (used to
exercise the dispatch-failure revert). -/
def statePend1 : QueueState :=
  { pending := [{ job := jobJ1, tenantId := "t1", enqueuedAt := 0 }],
    tenants := ["t1"],
    usage := fun x => if x = "t1" then ⟨1, 0⟩ else ⟨0, 0⟩,
    sendPending := none, inFlight := 0, totalQueued := 1, totalActive := 0 }

/-- A worker-side job body that passes the worker's `jobSchema` (hence has no
`tenantId` property). -/
def goodJobBody : Json :=
  .obj [("jobId", .str "j1"), ("claim", .str "c"),
        ("context", .obj [("documents",
            .arr [.obj [("id", .str "d1"), ("content", .str "x")]])]),
        ("criteria", .arr [.obj [("id", .str "k1"), ("description", .str "r")]])]

/-- Schema-valid contents for each stage response. -/
def stageOut : Stage → Json
  | .retrieval => .obj [("documents", .arr [.obj
      [("id", .str "d1"), ("summary", .str "s"), ("relevance", .num 1)]])]
  | .matching => .obj [("matches", .arr [.obj
      [("criterionId", .str "k1"), ("documentId", .str "d1"),
       ("evidence", .str "e"), ("score", .num 1)]])]
  | .findingGeneration => .obj [("findings", .arr [.obj
      [("id", .str "f1"), ("summary", .str "s"), ("severity", .str "low"),
       ("supportingEvidence", .arr [.str "e"])]])]
  | .agreementScoring => .obj [("agreements", .arr [.obj
      [("findingId", .str "f1"), ("agreementScore", .num 1), ("rationale", .str "r")]])]
  | .categorySynthesis => .obj [("categories", .arr [.obj
      [("name", .str "n"), ("rationale", .str "r"), ("findingIds", .arr [.str "f1"])]])]
  | .overallAssessment => .obj [("assessment", .obj
      [("overallScore", .num 1), ("summary", .str "s"), ("riskLevel", .str "low"),
       ("recommendation", .str "rec")])]

/-- An LLM oracle that answers every stage with a schema-valid content. -/
def goodOracle : LlmOracle := fun st _ => .ok (stageOut st)

/-- The pipeline result assembled from `stageOut` for `goodJobBody`. -/
def goodResult : Json :=
  .obj [("jobId", .str "j1"),
        ("retrieval", stageOut .retrieval),
        ("matching", stageOut .matching),
        ("findingGeneration", stageOut .findingGeneration),
        ("agreementScoring", stageOut .agreementScoring),
        ("categorySynthesis", stageOut .categorySynthesis),
        ("overallAssessment", stageOut .overallAssessment)]

/-- A message body that fails the worker's `Job` schema. -/
def badJobBody : Json := .obj [("claim", .num 1)]

/-- Decidable equality of enqueue outcomes, used to evaluate the concrete
scenarios. -/
instance : DecidableEq (Except EnqueueError EnqueueResult) := fun a b =>
  match a, b with
  | .error a, .error b =>
      if h : a = b then isTrue (by rw [h]) else isFalse (fun hh => h (Except.error.inj hh))
  | .error _, .ok _ => isFalse (fun hh => Except.noConfusion hh)
  | .ok _, .error _ => isFalse (fun hh => Except.noConfusion hh)
  | .ok a, .ok b =>
      if h : a = b then isTrue (by rw [h]) else isFalse (fun hh => h (Except.ok.inj hh))

/-- Options with `maxQueueDepth = 10`, `defaultQuota = 1`. -/
def optsQ1 : QueueOptions :=
  { maxQueueDepth := 10, maxDispatchInFlight := 2,
    defaultTenantQuota := 1, tenantQuotas := fun _ => none }

/-- State after admitting `jobJ1` under `optsQ1`: tenant `t1` at quota while
the global depth is far below its ceiling. -/
def stateQ1 : QueueState := (enqueue optsQ1 initState jobJ1 0).1

/-- The queue item created when `jobJ1` is admitted at time 0. -/
def itemJ1 : QueueItem := { job := jobJ1, tenantId := "t1", enqueuedAt := 0 }

/-- S1 state: `jobJ1` admitted under `optsS1`; the bus send has been started. -/
def dispatchedS1 : QueueState := (enqueue optsS1 initState jobJ1 0).1

/-- … the bus send succeeds. -/
def afterSendS1 : QueueState := sendResult optsS1 dispatchedS1 true

/-- … the worker's terminal usage event for `t1` is recorded. -/
def afterEventS1 : QueueState := recordUsageEvent afterSendS1 "t1" .completed

/-- The exact JSON body the admission queue dispatches for `jobJ1`
(it carries `tenantId`). -/
def dispatchedBodyJ1 : Json := encodeReasoningJob jobJ1

/-- No per-tenant quota overrides. -/
def quotasNone : String → Option Int := fun _ => none

/-- `tenantActiveCounts` with no active jobs. -/
def countsZero : String → Int := fun _ => 0

/-- `tenantActiveCounts` with one active job for `t1`. -/
def countsT1 : String → Int := fun x => if x = "t1" then 1 else 0

/-! ## Helper lemmas about the state operations -/

theorem touch_usage (s : QueueState) (t : String) : (s.touch t).usage = s.usage := by
  unfold QueueState.touch; split <;> rfl

theorem touch_pending (s : QueueState) (t : String) : (s.touch t).pending = s.pending := by
  unfold QueueState.touch; split <;> rfl

theorem touch_sendPending (s : QueueState) (t : String) :
    (s.touch t).sendPending = s.sendPending := by
  unfold QueueState.touch; split <;> rfl

theorem touch_inFlight (s : QueueState) (t : String) : (s.touch t).inFlight = s.inFlight := by
  unfold QueueState.touch; split <;> rfl

theorem touch_totalQueued (s : QueueState) (t : String) :
    (s.touch t).totalQueued = s.totalQueued := by
  unfold QueueState.touch; split <;> rfl

theorem touch_totalActive (s : QueueState) (t : String) :
    (s.touch t).totalActive = s.totalActive := by
  unfold QueueState.touch; split <;> rfl

theorem mem_touch_self (s : QueueState) (t : String) : t ∈ (s.touch t).tenants := by
  unfold QueueState.touch; split
  · assumption
  · exact List.mem_cons_self t s.tenants

theorem mem_touch_iff (s : QueueState) (t x : String) :
    x ∈ (s.touch t).tenants ↔ x = t ∨ x ∈ s.tenants := by
  unfold QueueState.touch; split
  · constructor
    · exact fun h => Or.inr h
    · rintro (rfl | h) <;> assumption
  · exact List.mem_cons

theorem sum_map_add (l : List String) (f g : String → Int) :
    (l.map (fun x => f x + g x)).sum = (l.map f).sum + (l.map g).sum := by
  induction l with
  | nil => simp
  | cons a l ih => simp only [List.map_cons, List.sum_cons, ih]; ring

theorem sum_map_update (l : List String) (hnd : l.Nodup) (t : String) (ht : t ∈ l)
    (f : String → Int) (v : Int) :
    (l.map (fun x => if x = t then v else f x)).sum = (l.map f).sum - f t + v := by
  induction l with
  | nil => cases ht
  | cons a l ih =>
    rcases List.nodup_cons.mp hnd with ⟨ha, hnd1⟩
    by_cases hat : a = t
    · subst hat
      have hcongr : ∀ x ∈ l, (if x = a then v else f x) = f x := by
        intro x hx
        rw [if_neg]
        intro hxa
        exact ha (hxa ▸ hx)
      simp only [List.map_cons, List.sum_cons, List.map_congr_left hcongr,
        eq_self_iff_true, if_true]
      ring
    · have htl : t ∈ l := by
        rcases List.mem_cons.mp ht with h | h
        · exact absurd h.symm hat
        · exact h
      simp only [List.map_cons, List.sum_cons, if_neg hat, ih hnd1 htl]
      ring

theorem sum_indicator (l : List String) (hnd : l.Nodup) (y : String) (hy : y ∈ l) :
    (l.map (fun t => if y = t then (1 : Int) else 0)).sum = 1 := by
  induction l with
  | nil => cases hy
  | cons a l ih =>
    rcases List.nodup_cons.mp hnd with ⟨ha, hnd1⟩
    by_cases hay : y = a
    · subst hay
      have hcongr : ∀ x ∈ l, (if y = x then (1 : Int) else 0) = 0 := by
        intro x hx
        rw [if_neg]
        intro hyx
        exact ha (hyx ▸ hx)
      simp only [List.map_cons, List.sum_cons, if_pos rfl, List.map_congr_left hcongr]
      simp
    · have hyl : y ∈ l := by
        rcases List.mem_cons.mp hy with h | h
        · exact absurd h hay
        · exact h
      simp only [List.map_cons, List.sum_cons, if_neg (fun h => hay h)]
      rw [ih hnd1 hyl]
      ring

theorem sum_map_nonneg (l : List String) (f : String → Int) (h : ∀ t ∈ l, 0 ≤ f t) :
    0 ≤ (l.map f).sum := by
  induction l with
  | nil => simp
  | cons a l ih =>
    simp only [List.map_cons, List.sum_cons]
    have h1 := h a (List.mem_cons_self a l)
    have h2 := ih (fun t ht => h t (List.mem_cons_of_mem a ht))
    omega

theorem single_le_sum_mem (l : List String) (f : String → Int)
    (h : ∀ t ∈ l, 0 ≤ f t) (y : String) (hy : y ∈ l) : f y ≤ (l.map f).sum := by
  induction l with
  | nil => cases hy
  | cons a l ih =>
    simp only [List.map_cons, List.sum_cons]
    have h2 : 0 ≤ (l.map f).sum :=
      sum_map_nonneg l f (fun t ht => h t (List.mem_cons_of_mem a ht))
    rcases List.mem_cons.mp hy with rfl | hyl
    · omega
    · have := ih (fun t ht => h t (List.mem_cons_of_mem a ht)) hyl
      have h1 := h a (List.mem_cons_self a l)
      omega

theorem countTenant_nil (t : String) : countTenant t [] = 0 := rfl

theorem countTenant_cons (t : String) (it : QueueItem) (l : List QueueItem) :
    countTenant t (it :: l) =
      (if it.tenantId = t then 1 else 0) + countTenant t l := by
  unfold countTenant
  by_cases h : it.tenantId = t
  · rw [List.filter_cons_of_pos (by simp [h]), if_pos h]
    push_cast [List.length_cons]
    ring
  · rw [List.filter_cons_of_neg (by simp [h]), if_neg h]
    ring

theorem countTenant_append_single (t : String) (l : List QueueItem) (it : QueueItem) :
    countTenant t (l ++ [it]) =
      countTenant t l + (if it.tenantId = t then 1 else 0) := by
  induction l with
  | nil =>
      rw [List.nil_append, countTenant_cons, countTenant_nil]
      ring
  | cons a l ih =>
      rw [List.cons_append, countTenant_cons, countTenant_cons, ih]
      ring

theorem countTenant_nonneg (t : String) (l : List QueueItem) : 0 ≤ countTenant t l := by
  unfold countTenant
  positivity

theorem countTenant_pos_of_mem (it : QueueItem) (l : List QueueItem) (h : it ∈ l) :
    1 ≤ countTenant it.tenantId l := by
  unfold countTenant
  have : it ∈ l.filter (fun x => x.tenantId = it.tenantId) :=
    List.mem_filter.mpr ⟨h, by simp⟩
  have hlen : 0 < (l.filter (fun x => x.tenantId = it.tenantId)).length :=
    List.length_pos.mpr (List.ne_nil_of_mem this)
  omega

theorem touch_tenants_of_mem (s : QueueState) (t : String) (h : t ∈ s.tenants) :
    (s.touch t).tenants = s.tenants := by
  unfold QueueState.touch
  rw [if_pos h]

theorem inflightFor_nonneg (s : QueueState) (t : String) : 0 ≤ inflightFor s t := by
  unfold inflightFor
  rcases s.sendPending with _ | it
  · exact le_refl 0
  · dsimp only
    split <;> omega

theorem inflightFor_of_none (s : QueueState) (h : s.sendPending = none) (t : String) :
    inflightFor s t = 0 := by
  unfold inflightFor
  rw [h]

theorem inflightFor_of_some (s : QueueState) (it : QueueItem)
    (h : s.sendPending = some it) (t : String) :
    inflightFor s t = if it.tenantId = t then 1 else 0 := by
  unfold inflightFor
  rw [h]

theorem sum_countTenant (tl : List String) (pl : List QueueItem)
    (hnd : tl.Nodup) (hmem : ∀ it ∈ pl, it.tenantId ∈ tl) :
    (tl.map (fun t => countTenant t pl)).sum = (pl.length : Int) := by
  induction pl with
  | nil => simp [countTenant_nil]
  | cons it pl ih =>
      have hmem1 : ∀ x ∈ pl, x.tenantId ∈ tl :=
        fun x hx => hmem x (List.mem_cons_of_mem it hx)
      have hcongr : ∀ t ∈ tl, countTenant t (it :: pl) =
          (if it.tenantId = t then (1 : Int) else 0) + countTenant t pl :=
        fun t _ => countTenant_cons t it pl
      rw [List.map_congr_left hcongr, sum_map_add,
        sum_indicator tl hnd it.tenantId (hmem it (List.mem_cons_self it pl)),
        ih hmem1]
      push_cast [List.length_cons]
      ring

theorem sumActive_touch (s : QueueState) (t : String) (h : t ∉ s.tenants) :
    sumActive (s.touch t) = (s.usage t).active + sumActive s := by
  unfold sumActive QueueState.touch
  rw [if_neg h]
  dsimp only
  rw [List.map_cons, List.sum_cons]

theorem sumActive_setUsage (s : QueueState) (t : String) (u : TenantUsage)
    (hnd : s.tenants.Nodup) (ht : t ∈ s.tenants) :
    sumActive (s.setUsage t u) = sumActive s - (s.usage t).active + u.active := by
  unfold sumActive QueueState.setUsage
  dsimp only
  have hfn : ∀ x ∈ s.tenants,
      (if x = t then u else s.usage x).active =
        if x = t then u.active else (s.usage x).active := by
    intro x _
    split <;> rfl
  rw [List.map_congr_left hfn,
    sum_map_update s.tenants hnd t ht (fun x => (s.usage x).active) u.active]

/-- Tenants of pending items are present in the usage map. -/
theorem mem_tenants_of_pending {o : QueueOptions} {s : QueueState} {c : String → Int}
    (inv : QueueInv o s c) (it : QueueItem) (hit : it ∈ s.pending) :
    it.tenantId ∈ s.tenants := by
  by_contra hn
  have h0 := inv.usageOff it.tenantId hn
  have hq := inv.queuedCount it.tenantId
  rw [h0] at hq
  have := countTenant_pos_of_mem it s.pending hit
  simp only at hq
  omega

/-- The tenant of the item awaiting its send result is present in the map. -/
theorem mem_tenants_of_sendPending {o : QueueOptions} {s : QueueState} {c : String → Int}
    (inv : QueueInv o s c) (it : QueueItem) (h : s.sendPending = some it) :
    it.tenantId ∈ s.tenants := by
  by_contra hn
  have h0 := inv.usageOff it.tenantId hn
  have ha := inv.activeBal it.tenantId
  rw [h0, inflightFor_of_some s it h, if_pos rfl] at ha
  have := inv.creditsNonneg it.tenantId
  simp only at ha
  omega

theorem active_nonneg_of_inv {o : QueueOptions} {s : QueueState} {c : String → Int}
    (inv : QueueInv o s c) (t : String) : 0 ≤ (s.usage t).active := by
  have := inv.activeBal t
  have h1 := inv.creditsNonneg t
  have h2 := inflightFor_nonneg s t
  omega

theorem active_le_sumActive {o : QueueOptions} {s : QueueState} {c : String → Int}
    (inv : QueueInv o s c) (t : String) : (s.usage t).active ≤ sumActive s := by
  by_cases ht : t ∈ s.tenants
  · exact single_le_sum_mem s.tenants (fun x => (s.usage x).active)
      (fun x _ => active_nonneg_of_inv inv x) t ht
  · rw [inv.usageOff t ht]
    exact sum_map_nonneg s.tenants _ (fun x _ => active_nonneg_of_inv inv x)

/-- `totalQueued` agrees with the per-tenant sum of `queued` under the invariant. -/
theorem sumQueued_eq_totalQueued {o : QueueOptions} {s : QueueState} {c : String → Int}
    (inv : QueueInv o s c) : sumQueued s = s.totalQueued := by
  unfold sumQueued
  have hcongr : ∀ t ∈ s.tenants, (s.usage t).queued = countTenant t s.pending :=
    fun t _ => inv.queuedCount t
  rw [List.map_congr_left hcongr,
    sum_countTenant s.tenants s.pending inv.nodup
      (fun it hit => mem_tenants_of_pending inv it hit), inv.totalQ]

theorem inflightFor_eq_of_sendPending (s s1 : QueueState)
    (h : s1.sendPending = s.sendPending) (t : String) :
    inflightFor s1 t = inflightFor s t := by
  unfold inflightFor
  rw [h]

theorem inv_touch (o : QueueOptions) (s : QueueState) (c : String → Int) (t : String)
    (inv : QueueInv o s c) : QueueInv o (s.touch t) c := by
  by_cases h : t ∈ s.tenants
  · unfold QueueState.touch
    rw [if_pos h]
    exact inv
  · have hsum : sumActive (s.touch t) = (s.usage t).active + sumActive s :=
      sumActive_touch s t h
    unfold QueueState.touch at hsum ⊢
    rw [if_neg h] at hsum ⊢
    obtain ⟨cN, uOff, nd, qC, aB, tQ, tA, iF, dL⟩ := inv
    refine ⟨cN, ?_, ?_, qC, aB, tQ, ?_, iF, dL⟩
    · intro x hx
      exact uOff x (fun hmem => hx (List.mem_cons_of_mem t hmem))
    · exact List.nodup_cons.mpr ⟨h, nd⟩
    · show s.totalActive = _
      rw [hsum, uOff t h]
      simpa using tA

theorem inv_event_started (o : QueueOptions) (s : QueueState) (c : String → Int)
    (t : String) (inv : QueueInv o s c) :
    QueueInv o (recordUsageEvent s t .started) c := by
  unfold recordUsageEvent
  simp only [EventType.isTerminal, Bool.false_and, Bool.false_eq_true, if_false]
  exact inv_touch o s c t inv

theorem inv_event_terminal (o : QueueOptions) (s : QueueState) (c : String → Int)
    (t : String) (ty : EventType) (hty : ty.isTerminal = true) (hc : 1 ≤ c t)
    (inv : QueueInv o s c) :
    QueueInv o (recordUsageEvent s t ty) (bump c t (-1)) := by
  have hi := inflightFor_nonneg s t
  have htm : t ∈ s.tenants := by
    by_contra hn
    have h0 := inv.usageOff t hn
    have ha := inv.activeBal t
    rw [h0] at ha
    simp only at ha
    omega
  have htch : s.touch t = s := by
    unfold QueueState.touch
    rw [if_pos htm]
  have hact : (s.usage t).active = c t + inflightFor s t := inv.activeBal t
  have hpos : 0 < (s.usage t).active := by omega
  have hale : (s.usage t).active ≤ sumActive s := active_le_sumActive inv t
  unfold recordUsageEvent
  rw [htch, hty]
  simp only [Bool.true_and, decide_eq_true_eq, if_pos hpos]
  obtain ⟨cN, uOff, nd, qC, aB, tQ, tA, iF, dL⟩ := inv
  have hsum : sumActive (s.setUsage t
      { s.usage t with active := (s.usage t).active - 1 }) =
      sumActive s - (s.usage t).active + ((s.usage t).active - 1) :=
    sumActive_setUsage s t _ nd htm
  refine ⟨?_, ?_, nd, ?_, ?_, tQ, ?_, iF, ?_⟩
  · intro x
    unfold bump
    by_cases hx : x = t
    · rw [if_pos hx]
      subst hx
      omega
    · rw [if_neg hx]
      exact cN x
  · intro x hx
    have hxt : x ≠ t := fun hxt => hx (hxt ▸ htm)
    show (if x = t then _ else s.usage x) = _
    rw [if_neg hxt]
    exact uOff x hx
  · intro x
    show (if x = t then _ else s.usage x).queued = _
    by_cases hx : x = t
    · rw [if_pos hx]
      subst hx
      exact qC x
    · rw [if_neg hx]
      exact qC x
  · intro x
    show (if x = t then _ else s.usage x).active = bump c t (-1) x + inflightFor s x
    unfold bump
    by_cases hx : x = t
    · rw [if_pos hx, if_pos hx]
      subst hx
      show (s.usage x).active - 1 = c x + -1 + inflightFor s x
      omega
    · rw [if_neg hx, if_neg hx]
      exact aB x
  · show max 0 (s.totalActive - 1) =
      sumActive (s.setUsage t { s.usage t with active := (s.usage t).active - 1 })
    rw [hsum, max_eq_right (by omega)]
    omega
  · show s.totalQueued + max 0 (s.totalActive - 1) ≤ _
    rw [max_eq_right (by omega)]
    omega

theorem touch_eq_of_mem (s : QueueState) (t : String) (h : t ∈ s.tenants) :
    s.touch t = s := by
  unfold QueueState.touch
  rw [if_pos h]

theorem inv_dispatch_generic (o : QueueOptions) (s : QueueState) (c : String → Int)
    (next : QueueItem) (rest : List QueueItem)
    (inv : QueueInv o s c) (hpend : s.pending = next :: rest)
    (hspn : s.sendPending = none) :
    QueueInv o
      { pending := rest, tenants := s.tenants,
        usage := fun x => if x = next.tenantId then
            { queued := if (s.usage next.tenantId).queued > 0 then
                          (s.usage next.tenantId).queued - 1
                        else (s.usage next.tenantId).queued,
              active := (s.usage next.tenantId).active + 1 }
          else s.usage x,
        sendPending := some next, inFlight := s.inFlight + 1,
        totalQueued := max 0 (s.totalQueued - 1),
        totalActive := s.totalActive + 1 } c := by
  obtain ⟨cN, uOff, nd, qC, aB, tQ, tA, iF, dL⟩ := inv
  have hnextmem : next ∈ s.pending := by
    rw [hpend]; exact List.mem_cons_self _ _
  have htm : next.tenantId ∈ s.tenants :=
    mem_tenants_of_pending ⟨cN, uOff, nd, qC, aB, tQ, tA, iF, dL⟩ next hnextmem
  have hq1 : (s.usage next.tenantId).queued = 1 + countTenant next.tenantId rest := by
    rw [qC next.tenantId, hpend, countTenant_cons, if_pos rfl]
  have hcnn := countTenant_nonneg next.tenantId rest
  have hqpos : (s.usage next.tenantId).queued > 0 := by omega
  have hlen : s.totalQueued = ((next :: rest).length : Int) := by rw [tQ, hpend]
  have hlen1 : s.totalQueued = (rest.length : Int) + 1 := by
    rw [hlen]; push_cast [List.length_cons]; ring
  refine ⟨cN, ?_, nd, ?_, ?_, ?_, ?_, ?_, ?_⟩
  · intro x hx
    have hxt : x ≠ next.tenantId := fun hxt => hx (hxt ▸ htm)
    show (if x = next.tenantId then _ else s.usage x) = _
    rw [if_neg hxt]
    exact uOff x hx
  · intro x
    show (if x = next.tenantId then _ else s.usage x).queued = countTenant x rest
    by_cases hx : x = next.tenantId
    · rw [if_pos hx, hx]
      show (if (s.usage next.tenantId).queued > 0 then
              (s.usage next.tenantId).queued - 1
            else (s.usage next.tenantId).queued) = countTenant next.tenantId rest
      rw [if_pos hqpos]
      omega
    · rw [if_neg hx]
      have hce : countTenant x s.pending =
          (if next.tenantId = x then 1 else 0) + countTenant x rest := by
        rw [hpend, countTenant_cons]
      rw [if_neg (fun h => hx h.symm)] at hce
      have := qC x
      omega
  · intro x
    show (if x = next.tenantId then _ else s.usage x).active =
      c x + (if next.tenantId = x then 1 else 0)
    have haB := aB x
    rw [inflightFor_of_none s hspn] at haB
    by_cases hx : x = next.tenantId
    · rw [if_pos hx, if_pos hx.symm, hx]
      show (s.usage next.tenantId).active + 1 = c next.tenantId + 1
      have haB2 := aB next.tenantId
      rw [inflightFor_of_none s hspn] at haB2
      omega
    · rw [if_neg hx, if_neg (fun h => hx h.symm)]
      omega
  · show max 0 (s.totalQueued - 1) = (rest.length : Int)
    rw [max_eq_right (by omega)]
    omega
  · show s.totalActive + 1 =
      sumActive (s.setUsage next.tenantId
        { queued := if (s.usage next.tenantId).queued > 0 then
                      (s.usage next.tenantId).queued - 1
                    else (s.usage next.tenantId).queued,
          active := (s.usage next.tenantId).active + 1 })
    rw [sumActive_setUsage s next.tenantId _ nd htm]
    show s.totalActive + 1 =
      sumActive s - (s.usage next.tenantId).active + ((s.usage next.tenantId).active + 1)
    omega
  · show s.inFlight + 1 = 1
    rw [iF, hspn]
    rfl
  · show max 0 (s.totalQueued - 1) + (s.totalActive + 1) ≤ o.maxQueueDepth
    rw [max_eq_right (by omega)]
    omega

theorem inv_drainStep (o : QueueOptions) (s : QueueState) (c : String → Int)
    (inv : QueueInv o s c) : QueueInv o (drainStep o s) c := by
  unfold drainStep
  by_cases hsp : s.sendPending.isSome
  · rw [if_pos hsp]
    exact inv
  rw [if_neg hsp]
  have hspn : s.sendPending = none := Option.not_isSome_iff_eq_none.mp hsp
  cases hpend : s.pending with
  | nil => exact inv
  | cons next rest =>
    dsimp only
    by_cases hif : s.inFlight < o.maxDispatchInFlight
    · rw [if_pos hif]
      have hnextmem : next ∈ s.pending := by
        rw [hpend]; exact List.mem_cons_self _ _
      have htm : next.tenantId ∈ s.tenants := mem_tenants_of_pending inv next hnextmem
      set s1 : QueueState :=
        { pending := rest, tenants := s.tenants, usage := s.usage,
          sendPending := s.sendPending, inFlight := s.inFlight + 1,
          totalQueued := max 0 (s.totalQueued - 1),
          totalActive := s.totalActive } with hs1
      have htm1 : next.tenantId ∈ s1.tenants := htm
      rw [touch_eq_of_mem s1 next.tenantId htm1]
      exact inv_dispatch_generic o s c next rest inv hpend hspn
    · rw [if_neg hif]
      exact inv

theorem inv_sendOk_mid (o : QueueOptions) (s : QueueState) (c : String → Int)
    (it : QueueItem) (inv : QueueInv o s c) (hsp : s.sendPending = some it) :
    QueueInv o { s with sendPending := none, inFlight := max 0 (s.inFlight - 1) }
      (bump c it.tenantId 1) := by
  obtain ⟨cN, uOff, nd, qC, aB, tQ, tA, iF, dL⟩ := inv
  refine ⟨?_, uOff, nd, qC, ?_, tQ, tA, ?_, dL⟩
  · intro x
    unfold bump
    by_cases hx : x = it.tenantId
    · rw [if_pos hx]
      have := cN x
      omega
    · rw [if_neg hx]
      exact cN x
  · intro x
    show (s.usage x).active = bump c it.tenantId 1 x + inflightFor _ x
    have hfl : inflightFor
        { s with sendPending := none, inFlight := max 0 (s.inFlight - 1) } x = 0 :=
      inflightFor_of_none _ rfl x
    rw [hfl]
    have haB := aB x
    rw [inflightFor_of_some s it hsp] at haB
    unfold bump
    by_cases hx : x = it.tenantId
    · rw [if_pos hx]
      rw [if_pos hx.symm] at haB
      omega
    · rw [if_neg hx]
      rw [if_neg (fun h => hx h.symm)] at haB
      omega
  · show max 0 (s.inFlight - 1) = 0
    rw [iF, hsp]
    rfl

theorem inv_sendResult (o : QueueOptions) (s : QueueState) (c : String → Int)
    (it : QueueItem) (inv : QueueInv o s c) (hsp : s.sendPending = some it) :
    QueueInv o (sendResult o s true) (bump c it.tenantId 1) ∧
      QueueInv o (sendResult o s false) c := by
  have htm : it.tenantId ∈ s.tenants := mem_tenants_of_sendPending inv it hsp
  obtain ⟨cN, uOff, nd, qC, aB, tQ, tA, iF, dL⟩ := inv
  have haBt := aB it.tenantId
  rw [inflightFor_of_some s it hsp, if_pos rfl] at haBt
  have hcnn := cN it.tenantId
  have hapos : 0 < (s.usage it.tenantId).active := by omega
  have hale : (s.usage it.tenantId).active ≤ sumActive s :=
    active_le_sumActive ⟨cN, uOff, nd, qC, aB, tQ, tA, iF, dL⟩ it.tenantId
  constructor
  · unfold sendResult
    rw [hsp]
    dsimp only
    rw [if_pos rfl]
    exact inv_drainStep o _ _
      (inv_sendOk_mid o s c it ⟨cN, uOff, nd, qC, aB, tQ, tA, iF, dL⟩ hsp)
  · unfold sendResult
    rw [hsp]
    dsimp only
    rw [if_neg Bool.false_ne_true]
    dsimp only [QueueState.setUsage]
    refine ⟨cN, ?_, nd, ?_, ?_, ?_, ?_, ?_, ?_⟩
    · intro x hx
      have hxt : x ≠ it.tenantId := fun hxt => hx (hxt ▸ htm)
      show (if x = it.tenantId then _ else s.usage x) = _
      rw [if_neg hxt]
      exact uOff x hx
    · intro x
      show (if x = it.tenantId then _ else s.usage x).queued =
        countTenant x (it :: s.pending)
      rw [countTenant_cons]
      by_cases hx : x = it.tenantId
      · rw [if_pos hx, hx, if_pos rfl]
        show (s.usage it.tenantId).queued + 1 = _
        have := qC it.tenantId
        omega
      · rw [if_neg hx, if_neg (fun h => hx h.symm)]
        have := qC x
        omega
    · intro x
      show (if x = it.tenantId then _ else s.usage x).active =
        c x + inflightFor _ x
      have hfl : inflightFor
          { pending := it :: s.pending, tenants := s.tenants,
            usage := fun x => if x = it.tenantId then
                { queued := (s.usage it.tenantId).queued + 1,
                  active := max 0 ((s.usage it.tenantId).active - 1) }
              else s.usage x,
            sendPending := none, inFlight := max 0 (s.inFlight - 1),
            totalQueued := s.totalQueued + 1,
            totalActive := max 0 (s.totalActive - 1) } x = 0 :=
      inflightFor_of_none _ rfl x
      rw [hfl]
      have haB := aB x
      by_cases hx : x = it.tenantId
      · rw [if_pos hx, hx]
        show max 0 ((s.usage it.tenantId).active - 1) = c it.tenantId + 0
        rw [max_eq_right (by omega)]
        omega
      · rw [if_neg hx]
        rw [inflightFor_of_some s it hsp, if_neg (fun h => hx h.symm)] at haB
        omega
    · show s.totalQueued + 1 = ((it :: s.pending).length : Int)
      push_cast [List.length_cons]
      omega
    · show max 0 (s.totalActive - 1) =
        sumActive (s.setUsage it.tenantId
          { queued := (s.usage it.tenantId).queued + 1,
            active := max 0 ((s.usage it.tenantId).active - 1) })
      rw [sumActive_setUsage s it.tenantId _ nd htm]
      show _ = sumActive s - (s.usage it.tenantId).active +
        max 0 ((s.usage it.tenantId).active - 1)
      rw [max_eq_right (by omega), max_eq_right (by omega)]
      omega
    · show max 0 (s.inFlight - 1) = 0
      rw [iF, hsp]
      rfl
    · show (s.totalQueued + 1) + max 0 (s.totalActive - 1) ≤ o.maxQueueDepth
      rw [max_eq_right (by omega)]
      omega

theorem inv_enqueue_mid (o : QueueOptions) (s : QueueState) (c : String → Int)
    (job : ReasoningJob) (now : Int) (inv : QueueInv o s c)
    (htm : job.tenantId ∈ s.tenants)
    (hdepth : s.totalQueued + s.totalActive < o.maxQueueDepth) :
    QueueInv o
      { pending := s.pending ++ [{ job := job, tenantId := job.tenantId, enqueuedAt := now }],
        tenants := s.tenants,
        usage := fun x => if x = job.tenantId then
            { s.usage job.tenantId with queued := (s.usage job.tenantId).queued + 1 }
          else s.usage x,
        sendPending := s.sendPending, inFlight := s.inFlight,
        totalQueued := s.totalQueued + 1, totalActive := s.totalActive } c := by
  obtain ⟨cN, uOff, nd, qC, aB, tQ, tA, iF, dL⟩ := inv
  refine ⟨cN, ?_, nd, ?_, ?_, ?_, ?_, iF, ?_⟩
  · intro x hx
    have hxt : x ≠ job.tenantId := fun hxt => hx (hxt ▸ htm)
    show (if x = job.tenantId then _ else s.usage x) = _
    rw [if_neg hxt]
    exact uOff x hx
  · intro x
    show (if x = job.tenantId then _ else s.usage x).queued =
      countTenant x (s.pending ++ [{ job := job, tenantId := job.tenantId, enqueuedAt := now }])
    rw [countTenant_append_single]
    by_cases hx : x = job.tenantId
    · rw [if_pos hx, hx]
      show (s.usage job.tenantId).queued + 1 = _
      rw [if_pos rfl]
      have := qC job.tenantId
      omega
    · rw [if_neg hx, if_neg (fun h => hx h.symm)]
      have := qC x
      omega
  · intro x
    show (if x = job.tenantId then _ else s.usage x).active = c x + inflightFor s x
    by_cases hx : x = job.tenantId
    · rw [if_pos hx, hx]
      show (s.usage job.tenantId).active = c job.tenantId + inflightFor s job.tenantId
      exact aB job.tenantId
    · rw [if_neg hx]
      exact aB x
  · show s.totalQueued + 1 =
      ((s.pending ++
        [({ job := job, tenantId := job.tenantId, enqueuedAt := now } : QueueItem)]).length : Int)
    push_cast [List.length_append, List.length_cons, List.length_nil]
    omega
  · show s.totalActive =
      sumActive (s.setUsage job.tenantId
        { s.usage job.tenantId with queued := (s.usage job.tenantId).queued + 1 })
    rw [sumActive_setUsage s job.tenantId _ nd htm]
    show _ = sumActive s - (s.usage job.tenantId).active + (s.usage job.tenantId).active
    omega
  · show (s.totalQueued + 1) + s.totalActive ≤ o.maxQueueDepth
    omega

theorem inv_enqueue (o : QueueOptions) (s : QueueState) (c : String → Int)
    (job : ReasoningJob) (now : Int) (inv : QueueInv o s c) :
    QueueInv o (enqueue o s job now).1 c := by
  unfold enqueue
  dsimp only
  by_cases h1 : o.maxQueueDepth ≤
      (s.touch job.tenantId).totalQueued + (s.touch job.tenantId).totalActive
  · rw [if_pos h1]
    exact inv_touch o s c job.tenantId inv
  rw [if_neg h1]
  by_cases h2 : getQuota o job.tenantId ≤
      ((s.touch job.tenantId).usage job.tenantId).queued +
        ((s.touch job.tenantId).usage job.tenantId).active
  · rw [if_pos h2]
    exact inv_touch o s c job.tenantId inv
  rw [if_neg h2]
  dsimp only
  have hinv0 : QueueInv o (s.touch job.tenantId) c := inv_touch o s c job.tenantId inv
  have htm0 : job.tenantId ∈ (s.touch job.tenantId).tenants := mem_touch_self s job.tenantId
  have hdepth0 : (s.touch job.tenantId).totalQueued + (s.touch job.tenantId).totalActive <
      o.maxQueueDepth := by omega
  have hmid := inv_enqueue_mid o (s.touch job.tenantId) c job now hinv0 htm0 hdepth0
  exact inv_drainStep o _ c hmid

/-- Every state reachable under the matched-event discipline satisfies the
inductive invariant. -/
theorem inv_reachable (o : QueueOptions) (hm : 0 ≤ o.maxQueueDepth)
    (s : QueueState) (c : String → Int) (h : DReachable o s c) : QueueInv o s c := by
  induction h with
  | init =>
      refine ⟨fun t => le_refl 0, fun t _ => rfl, List.nodup_nil, ?_, ?_, rfl, rfl, rfl, ?_⟩
      · intro t
        rfl
      · intro t
        rfl
      · simpa using hm
  | enq s c job now _ ih => exact inv_enqueue o s c job now ih
  | sendOk s c it _ hsp ih => exact (inv_sendResult o s c it ih hsp).1
  | sendFail s c it _ hsp ih => exact (inv_sendResult o s c it ih hsp).2
  | evStarted s c t _ ih => exact inv_event_started o s c t ih
  | evTerminal s c t ty _ hty hc ih => exact inv_event_terminal o s c t ty hty hc ih

/-! ## Behaviour of `enqueue` on the guard conditions -/

theorem enqueue_depth_throw (o : QueueOptions) (s : QueueState) (job : ReasoningJob)
    (now : Int) (h : o.maxQueueDepth ≤ s.totalQueued + s.totalActive) :
    (enqueue o s job now).2 =
      .error (.depthErr (s.totalQueued + s.totalActive) o.maxQueueDepth) := by
  unfold enqueue
  dsimp only
  rw [touch_totalQueued, touch_totalActive, if_pos h]

theorem enqueue_quota_throw (o : QueueOptions) (s : QueueState) (job : ReasoningJob)
    (now : Int) (hd : s.totalQueued + s.totalActive < o.maxQueueDepth)
    (hq : getQuota o job.tenantId ≤
      (s.usage job.tenantId).queued + (s.usage job.tenantId).active) :
    (enqueue o s job now).2 =
      .error (.quotaErr job.tenantId (getQuota o job.tenantId) (s.usage job.tenantId)) := by
  unfold enqueue
  dsimp only
  rw [touch_totalQueued, touch_totalActive, touch_usage, if_neg (by omega), if_pos hq]

theorem drainStep_usage_sum (o : QueueOptions) (s : QueueState) (t : String)
    (hq : 0 < (s.usage t).queued) :
    ((drainStep o s).usage t).queued + ((drainStep o s).usage t).active =
      (s.usage t).queued + (s.usage t).active := by
  unfold drainStep
  by_cases hsp : s.sendPending.isSome
  · rw [if_pos hsp]
  · rw [if_neg hsp]
    cases hpend : s.pending with
    | nil => rfl
    | cons next rest =>
      dsimp only
      by_cases hif : s.inFlight < o.maxDispatchInFlight
      · rw [if_pos hif]
        simp only [QueueState.setUsage, touch_usage]
        by_cases ht : t = next.tenantId
        · rw [if_pos ht, ht]
          show (if (s.usage next.tenantId).queued > 0 then (s.usage next.tenantId).queued - 1
                else (s.usage next.tenantId).queued) + ((s.usage next.tenantId).active + 1) = _
          rw [if_pos (ht ▸ hq)]
          omega
        · rw [if_neg ht]
      · rw [if_neg hif]

/-- Inversion of a successful `enqueue`: the guards held and the successor
state is the drain prefix applied to the pushed state. -/
theorem enqueue_ok_inv (o : QueueOptions) (s : QueueState) (job : ReasoningJob)
    (now : Int) (s1 : QueueState) (res : EnqueueResult)
    (h : enqueue o s job now = (s1, .ok res)) :
    s.totalQueued + s.totalActive < o.maxQueueDepth ∧
    (s.usage job.tenantId).queued + (s.usage job.tenantId).active <
      getQuota o job.tenantId ∧
    s1 = drainStep o
      (QueueState.setUsage
        { pending := (s.touch job.tenantId).pending ++
            [{ job := job, tenantId := job.tenantId, enqueuedAt := now }],
          tenants := (s.touch job.tenantId).tenants,
          usage := s.usage,
          sendPending := (s.touch job.tenantId).sendPending,
          inFlight := (s.touch job.tenantId).inFlight,
          totalQueued := s.totalQueued + 1,
          totalActive := s.totalActive }
        job.tenantId { queued := (s.usage job.tenantId).queued + 1,
                       active := (s.usage job.tenantId).active }) := by
  unfold enqueue at h
  dsimp only at h
  rw [touch_totalQueued, touch_totalActive, touch_usage] at h
  by_cases h1 : o.maxQueueDepth ≤ s.totalQueued + s.totalActive
  · rw [if_pos h1] at h
    cases h
  rw [if_neg h1] at h
  by_cases h2 : getQuota o job.tenantId ≤
      (s.usage job.tenantId).queued + (s.usage job.tenantId).active
  · rw [if_pos h2] at h
    cases h
  rw [if_neg h2] at h
  refine ⟨by omega, by omega, ?_⟩
  exact (congrArg Prod.fst h).symm

theorem setUsage_usage_self (s : QueueState) (t : String) (u : TenantUsage) :
    (s.setUsage t u).usage t = u := by
  unfold QueueState.setUsage
  dsimp only
  rw [if_pos rfl]

/-- C5: the failed-dispatch round trip.  From an idle state with `it` at the
head of the pending list, run the drain prefix (pop `it`, move its counters
queued→active, start the bus send) and then the `catch` of a failed send: the
dispatching tenant's counters, the global totals, and the pending queue (with
`it` back at its head) equal their values from before the dispatch attempt
began.  The side conditions (head shape, idle drain, a dispatch slot free,
non-negative counters consistent with the head entry) hold in every reachable
state. -/
theorem claim_c5_dispatch_failure_revert (o : QueueOptions) (s : QueueState) (it : QueueItem)
    (rest : List QueueItem) (hpend : s.pending = it :: rest)
    (hspn : s.sendPending = none) (hif : s.inFlight < o.maxDispatchInFlight)
    (htm : it.tenantId ∈ s.tenants)
    (hq1 : 1 ≤ (s.usage it.tenantId).queued)
    (ha0 : 0 ≤ (s.usage it.tenantId).active)
    (htq : 1 ≤ s.totalQueued) (hta : 0 ≤ s.totalActive) :
    (sendResult o (drainStep o s) false).usage it.tenantId = s.usage it.tenantId ∧
    (sendResult o (drainStep o s) false).totalQueued = s.totalQueued ∧
    (sendResult o (drainStep o s) false).totalActive = s.totalActive ∧
    (sendResult o (drainStep o s) false).pending = it :: rest := by
  have hsp1 : ¬ s.sendPending.isSome = true := by
    rw [hspn]
    simp
  have hD : drainStep o s =
      { pending := rest, tenants := s.tenants,
        usage := fun x => if x = it.tenantId then
            { queued := if (s.usage it.tenantId).queued > 0 then
                (s.usage it.tenantId).queued - 1 else (s.usage it.tenantId).queued,
              active := (s.usage it.tenantId).active + 1 }
          else s.usage x,
        sendPending := some it, inFlight := s.inFlight + 1,
        totalQueued := max 0 (s.totalQueued - 1),
        totalActive := s.totalActive + 1 } := by
    unfold drainStep
    rw [if_neg hsp1, hpend]
    dsimp only
    rw [if_pos hif]
    set s1 : QueueState :=
      { pending := rest, tenants := s.tenants, usage := s.usage,
        sendPending := s.sendPending, inFlight := s.inFlight + 1,
        totalQueued := max 0 (s.totalQueued - 1),
        totalActive := s.totalActive } with hs1
    have htm1 : it.tenantId ∈ s1.tenants := htm
    rw [touch_eq_of_mem s1 it.tenantId htm1]
    rfl
  rw [hD]
  unfold sendResult
  dsimp only
  rw [if_neg Bool.false_ne_true]
  dsimp only [QueueState.setUsage]
  simp only [eq_self_iff_true, if_true]
  rw [if_pos (show (0 : Int) < (s.usage it.tenantId).queued by omega)]
  refine ⟨?_, ?_, ?_, trivial⟩
  · show ({ queued := (s.usage it.tenantId).queued - 1 + 1,
            active := max 0 ((s.usage it.tenantId).active + 1 - 1) } : TenantUsage) =
      s.usage it.tenantId
    rw [max_eq_right (by omega),
      show (s.usage it.tenantId).queued - 1 + 1 = (s.usage it.tenantId).queued by omega,
      show (s.usage it.tenantId).active + 1 - 1 = (s.usage it.tenantId).active by omega]
  · show max 0 (s.totalQueued - 1) + 1 = s.totalQueued
    rw [max_eq_right (by omega)]
    omega
  · show max 0 (s.totalActive + 1 - 1) = s.totalActive
    rw [max_eq_right (by omega)]
    omega

/-! ## Worker-side inversion lemmas -/

theorem except_bind_ok {α β : Type} (e : Except String α) (f : α → Except String β)
    (b : β) (h : e >>= f = .ok b) : ∃ a, e = .ok a ∧ f a = .ok b := by
  cases e with
  | error s =>
      have hh : (Except.error s : Except String β) = .ok b := h
      cases hh
  | ok a => exact ⟨a, rfl, h⟩

theorem ensureValid_ok (v : Json → Bool) (d : Json) (l : String) (r : Json)
    (h : ensureValid v d l = .ok r) : v r = true := by
  unfold ensureValid at h
  by_cases hv : v d
  · rw [if_pos hv] at h
    cases h
    exact hv
  · rw [if_neg hv] at h
    cases h

theorem runPipeline_ok_valid (job : Json) (oracle : LlmOracle) (r : Json)
    (h : runPipeline job oracle = .ok r) : validatePipeline r = true := by
  unfold runPipeline at h
  obtain ⟨a1, _, h⟩ := except_bind_ok _ _ _ h
  obtain ⟨a2, _, h⟩ := except_bind_ok _ _ _ h
  obtain ⟨a3, _, h⟩ := except_bind_ok _ _ _ h
  obtain ⟨a4, _, h⟩ := except_bind_ok _ _ _ h
  obtain ⟨a5, _, h⟩ := except_bind_ok _ _ _ h
  obtain ⟨a6, _, h⟩ := except_bind_ok _ _ _ h
  exact ensureValid_ok _ _ _ _ h

theorem sumDepth_eq_totals {o : QueueOptions} {s : QueueState} {c : String → Int}
    (inv : QueueInv o s c) : sumDepth s = s.totalQueued + s.totalActive := by
  unfold sumDepth
  rw [sum_map_add s.tenants (fun t => (s.usage t).queued) (fun t => (s.usage t).active)]
  have h1 := sumQueued_eq_totalQueued inv
  unfold sumQueued at h1
  rw [h1, inv.totalA]
  rfl

/-- C3 counterexample: with `maxQueueDepth = 1`, `defaultQuota = 1`, after one
admitted job tenant `t1` sits at its quota, yet a second `enqueue` for `t1`
throws `QueueDepthError` (the depth check runs first), not `TenantQuotaError`
as the claim demands. -/
theorem claim_c3_counterexample :
    getQuota optsTight "t1" ≤
      (stateTight1.usage "t1").queued + (stateTight1.usage "t1").active ∧
    (enqueue optsTight stateTight1 jobJ2t1 0).2 = .error (.depthErr 1 1) := by
  decide

/-- C3 amended: immediately after every granted admission the tenant's
`queued + active` is at most `quotaFor(tenantId)`; and `enqueue` throws
`TenantQuotaError` whenever `queued + active` is already at or above the quota
*provided the global depth ceiling has not been reached* (the depth check
takes precedence). -/
theorem claim_c3_amended (o : QueueOptions) (s : QueueState) (job : ReasoningJob)
    (now : Int) (hq0 : 0 ≤ (s.usage job.tenantId).queued) :
    (∀ s1 res, enqueue o s job now = (s1, .ok res) →
      (s1.usage job.tenantId).queued + (s1.usage job.tenantId).active ≤
        getQuota o job.tenantId) ∧
    (s.totalQueued + s.totalActive < o.maxQueueDepth →
      getQuota o job.tenantId ≤
        (s.usage job.tenantId).queued + (s.usage job.tenantId).active →
      (enqueue o s job now).2 =
        .error (.quotaErr job.tenantId (getQuota o job.tenantId)
          (s.usage job.tenantId))) := by
  constructor
  · intro s1 res h
    obtain ⟨hd, hq, hs1⟩ := enqueue_ok_inv o s job now s1 res h
    rw [hs1]
    rw [drainStep_usage_sum o _ job.tenantId
      (by rw [setUsage_usage_self]; dsimp only; omega)]
    rw [setUsage_usage_self]
    dsimp only
    omega
  · intro hd hq
    exact enqueue_quota_throw o s job now hd hq

/-- C3 witness: both halves applied at concrete inputs — the admission bound
at `optsTight` on the empty queue, and the quota throw at `optsQ1` from
`stateQ1`, where the depth ceiling is not reached. -/
theorem claim_c3_witness :
    ((enqueue optsTight initState jobJ1 0).1.usage "t1").queued +
      ((enqueue optsTight initState jobJ1 0).1.usage "t1").active ≤
      getQuota optsTight "t1" ∧
    (enqueue optsQ1 stateQ1 jobJ2t1 0).2 =
      .error (.quotaErr "t1" 1 ⟨0, 1⟩) := by
  constructor
  · exact (claim_c3_amended optsTight initState jobJ1 0 (by decide)).1
      (enqueue optsTight initState jobJ1 0).1
      { queueDepth := 1, position := 0, quota := 1, usage := ⟨0, 1⟩ }
      (Prod.ext rfl (by decide))
  · exact (claim_c3_amended optsQ1 stateQ1 jobJ2t1 0 (by decide)).2
      (by decide) (by decide)

/-- C4 counterexample: with `maxQueueDepth = 2`, after the racing trace
(`raceA5`) the per-tenant sum `Σ (queued + active)` already equals the
ceiling, yet the next `enqueue` is admitted (no `QueueDepthError`) and leaves
the sum at 3 > 2 — both halves of the claim fail on this interleaving. -/
theorem claim_c4_counterexample :
    optsDepth2.maxQueueDepth ≤ sumDepth raceA5 ∧
    (enqueue optsDepth2 raceA5 jobJ3 0).2 =
      .ok { queueDepth := 2, position := 1, quota := 5, usage := ⟨1, 0⟩ } ∧
    sumDepth (enqueue optsDepth2 raceA5 jobJ3 0).1 = 3 ∧
    optsDepth2.maxQueueDepth = 2 := by
  refine ⟨by decide, by decide, by decide, by decide⟩

/-- C4 amended: in every state reachable under the matched-event discipline
(each terminal usage event matched to a prior successful dispatch of that
tenant), the global sum of `queued + active` over all tenants is at most
`maxQueueDepth`; and unconditionally `enqueue` throws `QueueDepthError`
carrying the observed depth (`totalQueued + totalActive`) and the limit
whenever that aggregate is at or above `maxQueueDepth`. -/
theorem claim_c4_amended (o : QueueOptions) (hm : 0 ≤ o.maxQueueDepth)
    (s : QueueState) (c : String → Int) (h : DReachable o s c)
    (job : ReasoningJob) (now : Int) :
    sumDepth s ≤ o.maxQueueDepth ∧
    (o.maxQueueDepth ≤ s.totalQueued + s.totalActive →
      (enqueue o s job now).2 =
        .error (.depthErr (s.totalQueued + s.totalActive) o.maxQueueDepth)) := by
  have inv := inv_reachable o hm s c h
  constructor
  · rw [sumDepth_eq_totals inv]
    exact inv.depthLe
  · intro hd
    exact enqueue_depth_throw o s job now hd

/-- C4 witness: at `maxQueueDepth = 0` the empty queue is at the ceiling and
every submission throws `QueueDepthError 0 0`. -/
theorem claim_c4_witness :
    sumDepth initState ≤ optsZero.maxQueueDepth ∧
    (enqueue optsZero initState jobJ1 0).2 = .error (.depthErr 0 0) := by
  have h := claim_c4_amended optsZero (by decide) initState (fun _ => 0)
    DReachable.init jobJ1 0
  exact ⟨h.1, h.2 (by decide)⟩

/-- C5 witness: the revert applied to the concrete one-entry state
`statePend1`. -/
theorem claim_c5_witness :
    (sendResult optsS1 (drainStep optsS1 statePend1) false).usage "t1" =
      statePend1.usage "t1" ∧
    (sendResult optsS1 (drainStep optsS1 statePend1) false).totalQueued =
      statePend1.totalQueued ∧
    (sendResult optsS1 (drainStep optsS1 statePend1) false).totalActive =
      statePend1.totalActive ∧
    (sendResult optsS1 (drainStep optsS1 statePend1) false).pending = [itemJ1] :=
  claim_c5_dispatch_failure_revert optsS1 statePend1 itemJ1 [] rfl rfl
    (by decide) (by decide) (by decide) (by decide) (by decide) (by decide)

/-- C7 test: a body that fails the `Job` schema, and a string body that is not
valid JSON, both make `decodeJob` throw *outside* the worker's `try`: the
error escapes `processMessage` (`threw`), the message is **not** dead-lettered,
no envelope is sent and no usage event is posted. -/
theorem claim_c7_decode_failure_escapes_without_deadletter :
    processMessage (.jsonBody badJobBody) goodOracle "T" =
      { sent := [], completed := false, deadLettered := none,
        threw := some "Job failed schema validation", usagePosts := [] } ∧
    processMessage (.strBody "not-json" none) goodOracle "T" =
      { sent := [], completed := false, deadLettered := none,
        threw := some "Job response was not valid JSON", usagePosts := [] } := by
  exact ⟨rfl, rfl⟩

/-- C9 counterexample: under `defaultQuota = 2, maxQueueDepth = 10,
maxDispatchInFlight = 2`, a single submission to the empty queue returns
`position 0` and `usage {queued 0, active 1}`, not the claimed `position 1`
and `usage {queued 1, active 0}`. -/
theorem claim_c9_counterexample :
    (enqueue optsS1 initState jobJ1 0).2 =
      .ok { queueDepth := 1, position := 0, quota := 2, usage := ⟨0, 1⟩ } ∧
    (enqueue optsS1 initState jobJ1 0).2 ≠
      .ok { queueDepth := 1, position := 1, quota := 2, usage := ⟨1, 0⟩ } := by
  exact ⟨by decide, by decide⟩

/-- C9 amended: the value returned by `enqueue` for a single job submitted to
the empty queue has `queueDepth 1` and the tenant quota, but `position 0` and
`usage {queued 0, active 1}`: `void this.drain()` runs synchronously up to the
bus-send await before `enqueue` returns, so the counters move queued→active
when the send *starts*, and the send's later success leaves them unchanged. -/
theorem claim_c9_amended :
    (enqueue optsS1 initState jobJ1 0).2 =
      .ok { queueDepth := 1, position := 0, quota := 2, usage := ⟨0, 1⟩ } ∧
    (enqueue optsS1 initState jobJ1 0).1.sendPending = some itemJ1 ∧
    ((sendResult optsS1 (enqueue optsS1 initState jobJ1 0).1 true).usage "t1") =
      ⟨0, 1⟩ := by
  exact ⟨by decide, by decide, by decide⟩

/-- C10 counterexample: after the racing trace (a terminal usage event for a
tenant whose dispatch is awaiting its send result, followed by the send
failing), the aggregate `totalActive` is 0 while the per-tenant `active`
counters sum to 1. -/
theorem claim_c10_counterexample :
    raceA5.totalActive = 0 ∧ sumActive raceA5 = 1 ∧
    ¬ raceA5.totalActive = sumActive raceA5 := by
  exact ⟨by decide, by decide, by decide⟩

/-- C10 amended: in every state reachable under the matched-event discipline,
`totalQueued` equals the sum of per-tenant `queued` counters, `totalActive`
equals the sum of per-tenant `active` counters, and all of these counters are
non-negative.  (`totalQueued = Σ queued` and non-negativity in fact need no
discipline; the counterexample shows `totalActive = Σ active` does.) -/
theorem claim_c10_amended (o : QueueOptions) (hm : 0 ≤ o.maxQueueDepth)
    (s : QueueState) (c : String → Int) (h : DReachable o s c) :
    s.totalQueued = sumQueued s ∧ s.totalActive = sumActive s ∧
    0 ≤ s.totalQueued ∧ 0 ≤ s.totalActive ∧
    ∀ t, 0 ≤ (s.usage t).queued ∧ 0 ≤ (s.usage t).active := by
  have inv := inv_reachable o hm s c h
  refine ⟨(sumQueued_eq_totalQueued inv).symm, inv.totalA, ?_, ?_, ?_⟩
  · rw [inv.totalQ]
    positivity
  · rw [inv.totalA]
    exact sum_map_nonneg _ _ (fun t _ => active_nonneg_of_inv inv t)
  · intro t
    constructor
    · rw [inv.queuedCount]
      exact countTenant_nonneg t s.pending
    · exact active_nonneg_of_inv inv t

/-- C10 witness: the amended claim applied to the reachable state after
admitting `jobJ1`, a successful send, and the matching terminal event. -/
theorem claim_c10_witness :
    afterEventS1.totalQueued = sumQueued afterEventS1 ∧
    afterEventS1.totalActive = sumActive afterEventS1 ∧
    0 ≤ (afterEventS1.usage "t1").queued ∧
    0 ≤ (afterEventS1.usage "t1").active := by
  have r1 : DReachable optsS1 dispatchedS1 (fun _ => 0) :=
    DReachable.enq initState (fun _ => 0) jobJ1 0 DReachable.init
  have hsp : dispatchedS1.sendPending = some itemJ1 := by decide
  have r2 : DReachable optsS1 afterSendS1 (bump (fun _ => 0) "t1" 1) :=
    DReachable.sendOk dispatchedS1 (fun _ => 0) itemJ1 r1 hsp
  have r3 : DReachable optsS1 afterEventS1
      (bump (bump (fun _ => 0) "t1" 1) "t1" (-1)) :=
    DReachable.evTerminal afterSendS1 (bump (fun _ => 0) "t1" 1) "t1" .completed
      r2 rfl (by decide)
  have h := claim_c10_amended optsS1 (by decide) afterEventS1
    (bump (bump (fun _ => 0) "t1" 1) "t1" (-1)) r3
  exact ⟨h.1, h.2.1, (h.2.2.2.2 "t1").1, (h.2.2.2.2 "t1").2⟩

/-- C1: every job accepted by the admission queue and dispatched to the bus —
the `ReasoningJob` record with `jobId`, `tenantId`, `claim`,
`context.documents` and `criteria`, where the route has enforced non-empty
`documents` and `criteria` — validates successfully against the worker's `Job`
schema (`src/api/src/db.ts` `jobSchema`, which declares `tenantId`). -/
theorem claim_c1_dispatched_body_validates (job : ReasoningJob)
    (hd : job.documents ≠ []) (hc : job.criteria ≠ []) :
    DbWorker.validateJob (encodeReasoningJob job) = true := by
  have hd1 : 1 ≤ job.documents.length := List.length_pos.mpr hd
  have hc1 : 1 ≤ job.criteria.length := List.length_pos.mpr hc
  simp [DbWorker.validateJob, encodeReasoningJob, objSchema, keysAllowed, reqField,
    arrMin1, Json.isStr, List.all_map, List.length_map, hd1, hc1, List.all_eq_true]

/-- C1 witness: the S1 job's dispatched body validates. -/
theorem claim_c1_witness :
    DbWorker.validateJob (encodeReasoningJob jobJ1) = true :=
  claim_c1_dispatched_body_validates jobJ1 (by decide) (by decide)

/-- C2: for every decoded delivery of a job (and every body dispatched for an
admitted job decodes, by C1's schema), `processQueuedMessage` posts exactly
one terminal usage event — `rejected`, `completed` or `failed` — for the job's
tenant, never zero and never more than one; the post is the `emitUsageEvent`
fetch received by `POST /admin/usage/events`, which invokes
`recordUsageEvent`.  (`started` is not terminal and is a no-op in
accounting.) -/
theorem claim_c2_exactly_one_terminal_usage_event (quotas : String → Option Int)
    (defQuota : Int) (counts : String → Int) (body : MsgBody) (oracle : LlmOracle)
    (now : String) (job : Json) (hd : DbWorker.decodeJob body = .ok job) :
    ∃ ty, (ty = "rejected" ∨ ty = "completed" ∨ ty = "failed") ∧
      ((DbWorker.processQueuedMessage quotas defQuota counts body oracle
          now).1.usagePosts.filter (fun p => p.2 ≠ "started")) =
        [(tenantIdOf job, ty)] := by
  unfold DbWorker.processQueuedMessage
  rw [hd]
  dsimp only
  by_cases hq : DbWorker.getTenantQuota quotas defQuota (tenantIdOf job) ≤
      counts (tenantIdOf job)
  · rw [if_pos hq]
    exact ⟨"rejected", Or.inl rfl, rfl⟩
  · rw [if_neg hq]
    cases runPipeline job oracle with
    | ok r => exact ⟨"completed", Or.inr (Or.inl rfl), rfl⟩
    | error e => exact ⟨"failed", Or.inr (Or.inr rfl), rfl⟩

/-- C2 witness: the dispatched S1 body, all six stages valid — the one
terminal event is `completed` for `t1`. -/
theorem claim_c2_witness :
    ((DbWorker.processQueuedMessage quotasNone 5 countsZero
        (.jsonBody dispatchedBodyJ1) goodOracle "T").1.usagePosts.filter
      (fun p => p.2 ≠ "started")).length = 1 := by
  obtain ⟨ty, _, heq⟩ := claim_c2_exactly_one_terminal_usage_event quotasNone 5
    countsZero (.jsonBody dispatchedBodyJ1) goodOracle "T" dispatchedBodyJ1 rfl
  rw [heq]
  rfl

/-- C6: when the worker dequeues a job whose tenant already has an active
count at or above its quota, it sends the rejection envelope
`{jobId, tenantId, status:"rejected", completedAt, error:{code:
"TenantQuotaExceeded", message, quota, active}}` to the output bus, completes
the message (no dead-letter, nothing thrown), posts the `rejected` usage
event, and leaves the counts unchanged; the right-hand side does not mention
the LLM oracle, so the pipeline is not run for that job. -/
theorem claim_c6_worker_rejects_over_quota (quotas : String → Option Int)
    (defQuota : Int) (counts : String → Int) (body : MsgBody) (oracle : LlmOracle)
    (now : String) (job : Json) (hd : DbWorker.decodeJob body = .ok job)
    (hq : DbWorker.getTenantQuota quotas defQuota (tenantIdOf job) ≤
      counts (tenantIdOf job)) :
    DbWorker.processQueuedMessage quotas defQuota counts body oracle now =
      ({ sent := [.obj
            [("jobId", .str (jobIdOf job)),
             ("tenantId", .str (tenantIdOf job)),
             ("status", .str "rejected"),
             ("completedAt", .str now),
             ("error", .obj
                [("code", .str "TenantQuotaExceeded"),
                 ("message", .str ("Tenant " ++ tenantIdOf job ++ " exceeded quota of "
                    ++ toString (DbWorker.getTenantQuota quotas defQuota (tenantIdOf job))
                    ++ " active jobs.")),
                 ("quota", .num (DbWorker.getTenantQuota quotas defQuota (tenantIdOf job) : ℚ)),
                 ("active", .num (counts (tenantIdOf job) : ℚ))])]],
         completed := true, deadLettered := none, threw := none,
         usagePosts := [(tenantIdOf job, "rejected")] }, counts) := by
  unfold DbWorker.processQueuedMessage
  rw [hd]
  dsimp only
  rw [if_pos hq]

/-- C6 witness: `t1` at quota 1 with one active job — the S1 body is rejected
without consulting the pipeline. -/
theorem claim_c6_witness :
    DbWorker.processQueuedMessage quotasNone 1 countsT1
        (.jsonBody dispatchedBodyJ1) goodOracle "T" =
      ({ sent := [.obj
            [("jobId", .str "j1"),
             ("tenantId", .str "t1"),
             ("status", .str "rejected"),
             ("completedAt", .str "T"),
             ("error", .obj
                [("code", .str "TenantQuotaExceeded"),
                 ("message", .str "Tenant t1 exceeded quota of 1 active jobs."),
                 ("quota", .num 1),
                 ("active", .num 1)])]],
         completed := true, deadLettered := none, threw := none,
         usagePosts := [("t1", "rejected")] }, countsT1) :=
  claim_c6_worker_rejects_over_quota quotasNone 1 countsT1
    (.jsonBody dispatchedBodyJ1) goodOracle "T" dispatchedBodyJ1 rfl (by decide)

/-- C8: for every job whose six-stage pipeline succeeds, the message sent to
the output bus is exactly `{jobId, tenantId, completedAt (the ISO-8601 stamp
taken at completion), status:"completed", result}` where `result` is the
pipeline output, which always passes the combined `Pipeline` schema; the
message is completed, nothing is dead-lettered or thrown, and the `started`
and `completed` usage events are posted. -/
theorem claim_c8_completion_envelope (quotas : String → Option Int)
    (defQuota : Int) (counts : String → Int) (body : MsgBody) (oracle : LlmOracle)
    (now : String) (job r : Json) (hd : DbWorker.decodeJob body = .ok job)
    (hq : counts (tenantIdOf job) <
      DbWorker.getTenantQuota quotas defQuota (tenantIdOf job))
    (hr : runPipeline job oracle = .ok r) :
    (DbWorker.processQueuedMessage quotas defQuota counts body oracle now).1 =
      { sent := [.obj
            [("jobId", .str (jobIdOf job)),
             ("tenantId", .str (tenantIdOf job)),
             ("completedAt", .str now),
             ("status", .str "completed"),
             ("result", r)]],
        completed := true, deadLettered := none, threw := none,
        usagePosts := [(tenantIdOf job, "started"), (tenantIdOf job, "completed")] } ∧
    validatePipeline r = true := by
  constructor
  · unfold DbWorker.processQueuedMessage
    rw [hd]
    dsimp only
    rw [if_neg (not_le.mpr hq)]
    rw [hr]
  · exact runPipeline_ok_valid job oracle r hr

/-- C8 witness: the dispatched S1 body with the all-valid oracle yields the
full completion envelope around `goodResult`. -/
theorem claim_c8_witness :
    (DbWorker.processQueuedMessage quotasNone 5 countsZero
        (.jsonBody dispatchedBodyJ1) goodOracle "T").1 =
      { sent := [.obj
            [("jobId", .str "j1"),
             ("tenantId", .str "t1"),
             ("completedAt", .str "T"),
             ("status", .str "completed"),
             ("result", goodResult)]],
        completed := true, deadLettered := none, threw := none,
        usagePosts := [("t1", "started"), ("t1", "completed")] } ∧
    validatePipeline goodResult = true :=
  claim_c8_completion_envelope quotasNone 5 countsZero (.jsonBody dispatchedBodyJ1)
    goodOracle "T" dispatchedBodyJ1 goodResult rfl (by decide) rfl
